import Mathlib

/-!
# Node-local agent cache (agent/server/server.go)

A shallow embedding of the three package-level maps `Containers`, `Networks`,
`Interfaces` and of the HTTP handlers that read and write them.

* A Go `map[string]V` is an association list with at most one entry per key
  (`GoMap`); `m[k]`, `m[k] = v` and `delete(m, k)` are `GoMap.lookup`,
  `GoMap.set` and `GoMap.delete`.
* A handler is a function from the three maps and the request (the `{name}`
  path variable and the outcome of decoding the body, `none` standing for a
  decoding error) to the response written and the three maps afterwards.
* Pointers that server.go dereferences are options: an interface of a CNI
  result is `Option Interface`, and a handler that reads a field through a nil
  pointer panics, which is the response `Response.aborted`.
* The JSON codec, the router and the logger are external and not modelled.
-/

namespace NuageAgent

/-! ## Data model -/

/-- Error object returned by `bambou.NewBambouError(title, description)`. -/
structure BambouError where
  Title : String
  Description : String
deriving DecidableEq, Repr

/-- String constants of the package `errors` that the handlers prepend to error
titles. Their values are declared outside server.go, so the handlers take them
as a parameter. -/
structure ErrorConsts where
  ContainerCannotCreate : String
  ContainerCannotModify : String
  ContainerNotFound : String
  NetworkCannotCreate : String
  NetworkNotFound : String
deriving DecidableEq, Repr

/-- The descriptor `vspk.Container`: server.go reads its `Name` only; `attrs`
stands for all remaining attributes of the descriptor. -/
structure Container where
  Name : String
  attrs : String
deriving DecidableEq, Repr

/-- The configuration `nuagecnitypes.NetConf`: server.go reads `NetConf.Name`
only; `attrs` stands for the remaining configuration payload. -/
structure NetConf where
  Name : String
  attrs : String
deriving DecidableEq, Repr

/-- One network interface of a CNI result (`Name`, `Mac`, `Sandbox`), as
reached through `rez.Result.Interfaces`. -/
structure Interface where
  Name : String
  Mac : String
  Sandbox : String
deriving DecidableEq, Repr

/-- The record `nuagecnitypes.Result`: server.go reads `Result.Interfaces` only;
`attrs` stands for the remaining fields (addresses, routes, DNS). The field is
CNI's `[]*Interface`, a slice of pointers: `none` is a nil pointer, which is
what a JSON `null` element decodes to. -/
structure Result where
  Interfaces : List (Option Interface)
  attrs : String
deriving DecidableEq, Repr

/-! ## Go maps -/

/-- A Go `map[string]V`, kept as an association list. -/
abbrev GoMap (V : Type) := List (String × V)

namespace GoMap

variable {V : Type}

/-- The two-valued read `v, exists := m[k]`: `some v` when `k` is a key. -/
def lookup : GoMap V → String → Option V
  | [], _ => none
  | (k1, v1) :: rest, k => if k1 = k then some v1 else lookup rest k

/-- The assignment `m[k] = v`: replaces the entry of `k`, or adds one. -/
def set : GoMap V → String → V → GoMap V
  | [], k, v => [(k, v)]
  | (k1, v1) :: rest, k, v => if k1 = k then (k, v) :: rest else (k1, v1) :: set rest k v

/-- The builtin `delete(m, k)`: removes the entry of `k`, if any. -/
def delete : GoMap V → String → GoMap V
  | [], _ => []
  | (k1, v1) :: rest, k => if k1 = k then delete rest k else (k1, v1) :: delete rest k

/-- The values met by `for _, v := range m`, collected with `append`. Go leaves
the iteration order unspecified; the model lists them in the order of the
association list. On an empty map the Go slice stays nil; it is `[]` here. -/
def values (m : GoMap V) : List V := m.map Prod.snd

/-- The keys of the map. -/
def keys (m : GoMap V) : List String := m.map Prod.fst

end GoMap

/-- The three package-level caches of server.go. All start empty. -/
structure State where
  Containers : GoMap Container
  Networks : GoMap NetConf
  Interfaces : GoMap (List Result)
deriving DecidableEq, Repr

/-- The state at start-up: `make(map...)` three times. -/
def State.init : State := ⟨[], [], []⟩

/-! ## Responses -/

/-- The value handed to `sendjson` for encoding. -/
inductive Payload where
  | null
  | error (e : BambouError)
  | container (c : Container)
  | containers (cs : List Container)
  | netconf (n : NetConf)
  | netconfs (ns : List NetConf)
  | results (rs : List Result)
  | resultsList (rss : List (List Result))
deriving DecidableEq, Repr

/-- What a handler leaves on the `http.ResponseWriter`. -/
structure Response where
  contentType : Option String
  status : Nat
  body : Option Payload
deriving DecidableEq, Repr

def StatusOK : Nat := 200
def StatusCreated : Nat := 201
def StatusBadRequest : Nat := 400
def StatusNotFound : Nat := 404
def StatusConflict : Nat := 409

/-- A handler that returns without writing: net/http then answers 200 with no
body. -/
def Response.unwritten : Response := ⟨none, StatusOK, none⟩

/-- A handler that panics before writing: net/http recovers the panic and
closes the connection, so no status line and no body are sent. `0` is no HTTP
status; no other response of the model carries it. -/
def Response.aborted : Response := ⟨none, 0, none⟩

/-- The helper `sendjson(w, data, httpstatus)`. -/
def sendjson (data : Payload) (httpstatus : Nat) : Response :=
  ⟨some "application/json; charset=UTF-8", httpstatus, some data⟩

/-- The call `bambou.NewBambouError(title, description)`. -/
def NewBambouError (title description : String) : BambouError := ⟨title, description⟩

/-! ## Handlers: Containers -/

/-- `PutContainer`: `name` is `vars["name"]`, `body` the decoded descriptor. -/
def PutContainer (E : ErrorConsts) (s : State) (name : String) (body : Option Container) :
    Response × State :=
  match body with
  | none =>
    (sendjson (.error (NewBambouError (E.ContainerCannotCreate ++ name) "JSON decoding error"))
      StatusBadRequest, s)
  | some newc =>
    (sendjson .null StatusCreated, { s with Containers := s.Containers.set newc.Name newc })

/-- `GetContainers`. -/
def GetContainers (s : State) : Response × State :=
  (sendjson (.containers s.Containers.values) StatusOK, s)

/-- `GetContainer`. -/
def GetContainer (E : ErrorConsts) (s : State) (name : String) : Response × State :=
  match s.Containers.lookup name with
  | some container => (sendjson (.container container) StatusOK, s)
  | none =>
    (sendjson (.error (NewBambouError (E.ContainerNotFound ++ name) "")) StatusNotFound, s)

/-- `DeleteContainer`. -/
def DeleteContainer (E : ErrorConsts) (s : State) (name : String) : Response × State :=
  match s.Containers.lookup name with
  | some _ => (Response.unwritten, { s with Containers := s.Containers.delete name })
  | none =>
    (sendjson (.error (NewBambouError (E.ContainerNotFound ++ name) "")) StatusNotFound, s)

/-! ## Handlers: Networks -/

/-- `PostNetwork`: `body` is the decoded configuration. -/
def PostNetwork (E : ErrorConsts) (s : State) (body : Option NetConf) : Response × State :=
  match body with
  | none =>
    (sendjson (.error (NewBambouError E.NetworkCannotCreate "JSON decoding error"))
      StatusBadRequest, s)
  | some netconf =>
    if netconf.Name = "" then
      (sendjson (.error (NewBambouError E.NetworkCannotCreate
        "Network Configuration lacks a valid name")) StatusBadRequest, s)
    else
      match s.Networks.lookup netconf.Name with
      | some _ =>
        (sendjson (.error (NewBambouError (E.NetworkCannotCreate ++ netconf.Name)
          "Network Configuration already exists")) StatusConflict, s)
      | none =>
        (sendjson .null StatusCreated, { s with Networks := s.Networks.set netconf.Name netconf })

/-- `GetNetworks`. -/
def GetNetworks (s : State) : Response × State :=
  (sendjson (.netconfs s.Networks.values) StatusOK, s)

/-- `GetNetwork`. -/
def GetNetwork (E : ErrorConsts) (s : State) (name : String) : Response × State :=
  match s.Networks.lookup name with
  | some mynetw => (sendjson (.netconf mynetw) StatusOK, s)
  | none =>
    (sendjson (.error (NewBambouError (E.NetworkNotFound ++ name) "")) StatusNotFound, s)

/-- `DeleteNetwork`. -/
def DeleteNetwork (E : ErrorConsts) (s : State) (name : String) : Response × State :=
  match s.Networks.lookup name with
  | some _ => (Response.unwritten, { s with Networks := s.Networks.delete name })
  | none =>
    (sendjson (.error (NewBambouError (E.NetworkNotFound ++ name) "")) StatusNotFound, s)

/-! ## Handlers: Interfaces -/

/-- How the scan loops of `PostContainerInterfaces` end: `ok` carries `name`
after the loop; `ambiguous` the `name` held when a second non-empty `Sandbox`
makes the handler send 400 and return; `nilDeref` is the run-time panic of
reading `iface.Sandbox` through a nil `iface`. -/
inductive Scan where
  | ok (name : String)
  | ambiguous (name : String)
  | nilDeref
deriving DecidableEq, Repr

/-- The inner loop of `PostContainerInterfaces` over the interfaces of one
record, started with the current `name`. The loop reads `iface.Sandbox` of
every element it reaches, with no nil check. -/
def scanInterfaces : List (Option Interface) → String → Scan
  | [], name => .ok name
  | none :: _, _ => .nilDeref
  | some iface :: rest, name =>
    if iface.Sandbox ≠ "" then
      if name = "" then scanInterfaces rest iface.Sandbox else .ambiguous name
    else scanInterfaces rest name

/-- The outer loop of `PostContainerInterfaces` over the records. -/
def scanResults : List Result → String → Scan
  | [], name => .ok name
  | rez :: rest, name =>
    match scanInterfaces rez.Interfaces name with
    | .nilDeref => .nilDeref
    | .ambiguous n => .ambiguous n
    | .ok n => scanResults rest n

/-- `PostContainerInterfaces`: `body` is the decoded sequence of records. -/
def PostContainerInterfaces (E : ErrorConsts) (s : State) (body : Option (List Result)) :
    Response × State :=
  match body with
  | none =>
    (sendjson (.error (NewBambouError E.ContainerCannotCreate "JSON decoding error"))
      StatusBadRequest, s)
  | some containerifaces =>
    match scanResults containerifaces "" with
    | .nilDeref => (Response.aborted, s)
    | .ambiguous name =>
      (sendjson (.error (NewBambouError (E.ContainerCannotCreate ++ name)
        "Only one interface may specify the Container Name in the 'sandbox' field"))
        StatusBadRequest, s)
    | .ok name =>
      if name = "" then
        (sendjson (.error (NewBambouError E.ContainerCannotCreate
          "Cannot find a valid Container Name in the 'sandbox' field")) StatusBadRequest, s)
      else
        match s.Interfaces.lookup name with
        | some _ =>
          (sendjson (.error (NewBambouError (E.ContainerCannotCreate ++ name)
            "Network interfaces information for given container already exist"))
            StatusConflict, s)
        | none =>
          (sendjson .null StatusCreated,
            { s with Interfaces := s.Interfaces.set name containerifaces })

/-- `PutContainerInterfaces`: `name` is `vars["name"]`. -/
def PutContainerInterfaces (E : ErrorConsts) (s : State) (name : String)
    (body : Option (List Result)) : Response × State :=
  match body with
  | none =>
    (sendjson (.error (NewBambouError (E.ContainerCannotModify ++ name) "JSON decoding error"))
      StatusBadRequest, s)
  | some containerifaces =>
    (sendjson .null StatusOK, { s with Interfaces := s.Interfaces.set name containerifaces })

/-- `GetInterfaces`. -/
def GetInterfaces (s : State) : Response × State :=
  (sendjson (.resultsList s.Interfaces.values) StatusOK, s)

/-- `GetContainerInterfaces`. -/
def GetContainerInterfaces (E : ErrorConsts) (s : State) (name : String) : Response × State :=
  match s.Interfaces.lookup name with
  | some cifaces => (sendjson (.results cifaces) StatusOK, s)
  | none =>
    (sendjson (.error (NewBambouError (E.ContainerNotFound ++ name) "")) StatusNotFound, s)

/-- `DeleteContainerInterfaces`. -/
def DeleteContainerInterfaces (E : ErrorConsts) (s : State) (name : String) :
    Response × State :=
  match s.Interfaces.lookup name with
  | some _ => (Response.unwritten, { s with Interfaces := s.Interfaces.delete name })
  | none =>
    (sendjson (.error (NewBambouError (E.ContainerNotFound ++ name) "")) StatusNotFound, s)

/-- The non-empty `Sandbox` identifiers of the interfaces of one record, in
order, one per interface that has one. -/
def ifaceIds (l : List (Option Interface)) : List String :=
  ((l.filterMap id).filter (fun iface => iface.Sandbox ≠ "")).map (fun iface => iface.Sandbox)

/-- The non-empty `Sandbox` identifiers of a payload: one entry for each
individual interface, over all records, whose `Sandbox` is non-empty. -/
def ownerIds : List Result → List String
  | [] => []
  | rez :: rest => ifaceIds rez.Interfaces ++ ownerIds rest

/-! ## Sequences of handler calls -/

/-- One call of a handler, with the part of the request the handler reads. -/
inductive Call where
  | PostNetwork (body : Option NetConf)
  | GetNetworks
  | GetNetwork (name : String)
  | DeleteNetwork (name : String)
  | PutContainer (name : String) (body : Option Container)
  | GetContainers
  | GetContainer (name : String)
  | DeleteContainer (name : String)
  | PostContainerInterfaces (body : Option (List Result))
  | PutContainerInterfaces (name : String) (body : Option (List Result))
  | GetInterfaces
  | GetContainerInterfaces (name : String)
  | DeleteContainerInterfaces (name : String)
deriving DecidableEq, Repr

/-- Runs one handler call. -/
def step (E : ErrorConsts) (s : State) : Call → Response × State
  | .PostNetwork body => PostNetwork E s body
  | .GetNetworks => GetNetworks s
  | .GetNetwork name => GetNetwork E s name
  | .DeleteNetwork name => DeleteNetwork E s name
  | .PutContainer name body => PutContainer E s name body
  | .GetContainers => GetContainers s
  | .GetContainer name => GetContainer E s name
  | .DeleteContainer name => DeleteContainer E s name
  | .PostContainerInterfaces body => PostContainerInterfaces E s body
  | .PutContainerInterfaces name body => PutContainerInterfaces E s name body
  | .GetInterfaces => GetInterfaces s
  | .GetContainerInterfaces name => GetContainerInterfaces E s name
  | .DeleteContainerInterfaces name => DeleteContainerInterfaces E s name

/-- The state after a sequence of handler calls, run one after the other. -/
def run (E : ErrorConsts) (s : State) : List Call → State
  | [] => s
  | c :: cs => run E (step E s c).2 cs

/-- The responses written along a sequence of handler calls, in order. -/
def trace (E : ErrorConsts) (s : State) : List Call → List Response
  | [] => []
  | c :: cs => (step E s c).1 :: trace E (step E s c).2 cs

/-- A state is reachable when some sequence of handler calls leads to it from
the three empty maps. -/
def Reachable (E : ErrorConsts) (s : State) : Prop :=
  ∃ calls : List Call, run E State.init calls = s

/-- A sample instance of the error constants, used to evaluate the handlers on
concrete requests. -/
def sampleErrors : ErrorConsts :=
  { ContainerCannotCreate := "ContainerCannotCreate: "
    ContainerCannotModify := "ContainerCannotModify: "
    ContainerNotFound := "ContainerNotFound: "
    NetworkCannotCreate := "NetworkCannotCreate: "
    NetworkNotFound := "NetworkNotFound: " }

/-- The scan as it acts on the list of non-empty identifiers alone. -/
def scanIds : List String → String → Scan
  | [], name => .ok name
  | a :: rest, name => if name = "" then scanIds rest a else .ambiguous name

/-- No interface of the payload is a nil pointer. -/
def NilFree (payload : List Result) : Prop :=
  ∀ rez ∈ payload, none ∉ rez.Interfaces

/-- The owner invariant of the data model on one state: every sequence of
records held in `Interfaces` has at most one individual interface with a
non-empty `Sandbox`, and such an identifier equals the key of the entry. -/
def OwnerInvariant (s : State) : Prop :=
  ∀ (k : String) (rs : List Result), s.Interfaces.lookup k = some rs →
    (ownerIds rs).length ≤ 1 ∧ ∀ id ∈ ownerIds rs, id = k

/-- A call respects the owner rule when it is not a PutContainerInterfaces, or
when the payload it puts has at most one non-empty `Sandbox`, equal to the path
name. -/
def Call.respectsOwner : Call → Prop
  | .PutContainerInterfaces name (some payload) =>
    (ownerIds payload).length ≤ 1 ∧ ∀ id ∈ ownerIds payload, id = name
  | _ => True

/-- A Go map has one entry per key: the keys of the association list are
pairwise distinct. -/
def GoMap.WF {V : Type} (m : GoMap V) : Prop := m.keys.Nodup

/-- The three caches are Go maps. -/
def State.WF (s : State) : Prop :=
  s.Containers.WF ∧ s.Networks.WF ∧ s.Interfaces.WF

/-- The three kinds of cached resource. -/
inductive Resource where
  | networks
  | containers
  | interfaces
deriving DecidableEq, Repr

/-- The resource a handler belongs to. -/
def Call.resource : Call → Resource
  | .PostNetwork _ => .networks
  | .GetNetworks => .networks
  | .GetNetwork _ => .networks
  | .DeleteNetwork _ => .networks
  | .PutContainer _ _ => .containers
  | .GetContainers => .containers
  | .GetContainer _ => .containers
  | .DeleteContainer _ => .containers
  | .PostContainerInterfaces _ => .interfaces
  | .PutContainerInterfaces _ _ => .interfaces
  | .GetInterfaces => .interfaces
  | .GetContainerInterfaces _ => .interfaces
  | .DeleteContainerInterfaces _ => .interfaces

/-- Two states hold the same cache for the given resource. -/
def State.agree : Resource → State → State → Prop
  | .networks, s, t => s.Networks = t.Networks
  | .containers, s, t => s.Containers = t.Containers
  | .interfaces, s, t => s.Interfaces = t.Interfaces

/-- Every entry of Networks has a non-empty key equal to the name of its
configuration, and every entry of Containers a key equal to the Name of its
descriptor. -/
def KeyNameInvariant (s : State) : Prop :=
  (∀ (k : String) (v : NetConf), s.Networks.lookup k = some v → k ≠ "" ∧ k = v.Name) ∧
  (∀ (k : String) (v : Container), s.Containers.lookup k = some v → k = v.Name)

/-- The second record is the first with its interfaces in another order. -/
def ReorderedRecord (r1 r2 : Result) : Prop :=
  r1.Interfaces.Perm r2.Interfaces ∧ r1.attrs = r2.attrs

/-- The second payload is the first with the interfaces inside each record
permuted and then the records permuted. -/
def Reordered (p1 p2 : List Result) : Prop :=
  ∃ mid : List Result, List.Forall₂ ReorderedRecord p1 mid ∧ mid.Perm p2

/-- Every key other than `k` reads the same in the three caches of `s` and
of `t`: same presence and same value. -/
def State.sameExcept (k : String) (s t : State) : Prop :=
  ∀ j : String, j ≠ k →
    s.Networks.lookup j = t.Networks.lookup j ∧
    s.Containers.lookup j = t.Containers.lookup j ∧
    s.Interfaces.lookup j = t.Interfaces.lookup j

/-- The two states hold the same three Go maps: every key reads the same in
both. (A Go map has no order; the association lists may list the entries in
different orders.) -/
def State.sameMaps (s t : State) : Prop :=
  ∀ j : String,
    s.Networks.lookup j = t.Networks.lookup j ∧
    s.Containers.lookup j = t.Containers.lookup j ∧
    s.Interfaces.lookup j = t.Interfaces.lookup j

/-! ## Facts about Go maps -/

namespace GoMap

variable {V : Type}

theorem lookup_eq_none_iff (m : GoMap V) (k : String) :
    m.lookup k = none ↔ k ∉ m.keys := by
  induction m with
  | nil => simp [lookup, keys]
  | cons e rest ih =>
    obtain ⟨k1, v1⟩ := e
    by_cases h : k1 = k
    · simp [lookup, keys, h]
    · have h2 : ¬ k = k1 := fun h3 => h h3.symm
      simpa [lookup, keys, h, h2] using ih

theorem lookup_isSome_iff (m : GoMap V) (k : String) :
    (m.lookup k).isSome = true ↔ k ∈ m.keys := by
  rw [← not_iff_not, ← lookup_eq_none_iff]
  cases m.lookup k <;> simp

theorem lookup_set_same (m : GoMap V) (k : String) (v : V) :
    (m.set k v).lookup k = some v := by
  induction m with
  | nil => simp [set, lookup]
  | cons e rest ih =>
    obtain ⟨k1, v1⟩ := e
    by_cases h : k1 = k
    · simp [set, lookup, h]
    · simp [set, lookup, h, ih]

theorem lookup_set_ne (m : GoMap V) (k j : String) (v : V) (hne : k ≠ j) :
    (m.set k v).lookup j = m.lookup j := by
  induction m with
  | nil => simp [set, lookup, hne]
  | cons e rest ih =>
    obtain ⟨k1, v1⟩ := e
    by_cases h : k1 = k
    · subst h
      simp [set, lookup, hne]
    · by_cases h2 : k1 = j
      · subst h2
        simp [set, lookup, h]
      · simp [set, lookup, h, h2, ih]

theorem lookup_delete_same (m : GoMap V) (k : String) :
    (m.delete k).lookup k = none := by
  induction m with
  | nil => simp [delete, lookup]
  | cons e rest ih =>
    obtain ⟨k1, v1⟩ := e
    by_cases h : k1 = k
    · simp [delete, h, ih]
    · simp [delete, lookup, h, ih]

theorem lookup_delete_ne (m : GoMap V) (k j : String) (hne : k ≠ j) :
    (m.delete k).lookup j = m.lookup j := by
  induction m with
  | nil => simp [delete, lookup]
  | cons e rest ih =>
    obtain ⟨k1, v1⟩ := e
    by_cases h : k1 = k
    · subst h
      simp [delete, lookup, hne, ih]
    · by_cases h2 : k1 = j
      · subst h2
        simp [delete, lookup, h]
      · simp [delete, lookup, h, h2, ih]

end GoMap

/-! ## Containers: put and get -/

/-- C1 (evaluation at the failing input). On the empty caches, a PUT at path
"a" whose body is a descriptor named "b" is answered 201, but the descriptor is
stored under "b", the name inside the body: a GET at path "a" is answered 404,
and the descriptor is served at path "b" instead. -/
theorem PutContainer_ignores_path_name :
    (PutContainer sampleErrors State.init "a" (some ⟨"b", "x"⟩)).1.status = 201 ∧
    (GetContainer sampleErrors
      (PutContainer sampleErrors State.init "a" (some ⟨"b", "x"⟩)).2 "a").1.status = 404 ∧
    (GetContainer sampleErrors
      (PutContainer sampleErrors State.init "a" (some ⟨"b", "x"⟩)).2 "b").1
        = sendjson (.container ⟨"b", "x"⟩) 200 := by
  decide

/-! ## Networks: creation -/

/-- C2. PostNetwork answers 400 when the body does not decode or the decoded
name is empty; otherwise 409 when the name is already a key of Networks;
otherwise 201, and Networks afterwards is Networks before with the
configuration assigned at its name. -/
theorem PostNetwork_classification (E : ErrorConsts) (s : State) (body : Option NetConf) :
    match body with
    | none => (PostNetwork E s body).1.status = 400
    | some netconf =>
      if netconf.Name = "" then (PostNetwork E s body).1.status = 400
      else if netconf.Name ∈ s.Networks.keys then (PostNetwork E s body).1.status = 409
      else (PostNetwork E s body).1.status = 201 ∧
        (PostNetwork E s body).2.Networks = s.Networks.set netconf.Name netconf := by
  cases body with
  | none => simp [PostNetwork, sendjson, StatusBadRequest]
  | some netconf =>
    by_cases h1 : netconf.Name = ""
    · simp [PostNetwork, sendjson, StatusBadRequest, h1]
    · by_cases h2 : netconf.Name ∈ s.Networks.keys
      · obtain ⟨v, hv⟩ := Option.isSome_iff_exists.mp
          ((GoMap.lookup_isSome_iff s.Networks netconf.Name).mpr h2)
        simp [PostNetwork, sendjson, StatusConflict, h1, h2, hv]
      · have hv := (GoMap.lookup_eq_none_iff s.Networks netconf.Name).mpr h2
        simp [PostNetwork, sendjson, StatusCreated, h1, h2, hv]

/-! ## Interfaces: the owner scan -/

theorem ifaceIds_ne_empty (l : List (Option Interface)) : ∀ a ∈ ifaceIds l, a ≠ "" := by
  intro a ha
  simp only [ifaceIds, List.mem_map, List.mem_filter] at ha
  obtain ⟨i, ⟨_, hi⟩, rfl⟩ := ha
  simpa using hi

theorem ownerIds_ne_empty (rs : List Result) : ∀ a ∈ ownerIds rs, a ≠ "" := by
  induction rs with
  | nil => simp [ownerIds]
  | cons r rest ih =>
    intro a ha
    simp only [ownerIds, List.mem_append] at ha
    rcases ha with ha | ha
    · exact ifaceIds_ne_empty _ a ha
    · exact ih a ha

theorem NilFree_cons (r : Result) (rest : List Result) :
    NilFree (r :: rest) ↔ none ∉ r.Interfaces ∧ NilFree rest := by
  simp [NilFree]

theorem scanInterfaces_eq_scanIds (l : List (Option Interface)) (name : String)
    (hnil : none ∉ l) : scanInterfaces l name = scanIds (ifaceIds l) name := by
  induction l generalizing name with
  | nil => simp [scanInterfaces, scanIds, ifaceIds]
  | cons x rest ih =>
    cases x with
    | none => simp at hnil
    | some i =>
      have hrest : none ∉ rest := fun h => hnil (List.mem_cons_of_mem _ h)
      by_cases h : i.Sandbox = ""
      · simpa [scanInterfaces, ifaceIds, h] using ih name hrest
      · by_cases hn : name = ""
        · have := ih i.Sandbox hrest
          simp only [ifaceIds] at this
          simp [scanInterfaces, scanIds, ifaceIds, h, hn, this]
        · simp [scanInterfaces, scanIds, ifaceIds, h, hn]

theorem scanIds_append (l1 l2 : List String) (name : String) :
    scanIds (l1 ++ l2) name =
      match scanIds l1 name with
      | .nilDeref => .nilDeref
      | .ambiguous n => .ambiguous n
      | .ok n => scanIds l2 n := by
  induction l1 generalizing name with
  | nil => simp [scanIds]
  | cons a rest ih =>
    by_cases hn : name = ""
    · simp [scanIds, hn, ih]
    · simp [scanIds, hn]

theorem scanResults_eq_scanIds (rs : List Result) (name : String) (hnil : NilFree rs) :
    scanResults rs name = scanIds (ownerIds rs) name := by
  induction rs generalizing name with
  | nil => simp [scanResults, scanIds, ownerIds]
  | cons r rest ih =>
    obtain ⟨hr, hrest⟩ := (NilFree_cons r rest).mp hnil
    simp only [scanResults, ownerIds, scanIds_append, scanInterfaces_eq_scanIds _ _ hr]
    cases scanIds (ifaceIds r.Interfaces) name with
    | nilDeref => rfl
    | ambiguous n => rfl
    | ok n => exact ih n hrest

/-- The scan of a payload without nil interface, started with the empty name,
by the number of identifiers. -/
theorem scanResults_cases (rs : List Result) (hnil : NilFree rs) :
    match ownerIds rs with
    | [] => scanResults rs "" = .ok ""
    | [a] => scanResults rs "" = .ok a ∧ a ≠ ""
    | a :: _ :: _ => scanResults rs "" = .ambiguous a := by
  have hne := ownerIds_ne_empty rs
  rw [scanResults_eq_scanIds rs "" hnil]
  cases h : ownerIds rs with
  | nil => simp [scanIds]
  | cons a rest =>
    have ha : a ≠ "" := hne a (by simp [h])
    cases rest with
    | nil => simp [scanIds, ha]
    | cons b rest2 => simp [scanIds, ha]

/-- A scan that runs to its end has read every interface: none is nil. -/
theorem scanInterfaces_ok_nilFree (l : List (Option Interface)) (name n : String)
    (h : scanInterfaces l name = .ok n) : none ∉ l := by
  induction l generalizing name with
  | nil => simp
  | cons x rest ih =>
    cases x with
    | none => simp [scanInterfaces] at h
    | some i =>
      simp only [scanInterfaces] at h
      have hrest : none ∉ rest := by
        split at h
        · split at h
          · exact ih _ h
          · cases h
        · exact ih _ h
      simpa using hrest

theorem scanResults_ok_nilFree (rs : List Result) (name n : String)
    (h : scanResults rs name = .ok n) : NilFree rs := by
  induction rs generalizing name with
  | nil => simp [NilFree]
  | cons r rest ih =>
    simp only [scanResults] at h
    rw [NilFree_cons]
    cases hr : scanInterfaces r.Interfaces name with
    | nilDeref => simp [hr] at h
    | ambiguous m => simp [hr] at h
    | ok m =>
      simp only [hr] at h
      exact ⟨scanInterfaces_ok_nilFree _ _ _ hr, ih m h⟩

theorem PostContainerInterfaces_nilDeref (E : ErrorConsts) (s : State)
    (payload : List Result) (h : scanResults payload "" = .nilDeref) :
    PostContainerInterfaces E s (some payload) = (Response.aborted, s) := by
  simp [PostContainerInterfaces, h]

theorem PostContainerInterfaces_ambiguous (E : ErrorConsts) (s : State)
    (payload : List Result) (a : String) (h : scanResults payload "" = .ambiguous a) :
    PostContainerInterfaces E s (some payload) =
      (sendjson (.error (NewBambouError (E.ContainerCannotCreate ++ a)
        "Only one interface may specify the Container Name in the 'sandbox' field"))
        StatusBadRequest, s) := by
  simp [PostContainerInterfaces, h]

theorem PostContainerInterfaces_no_owner (E : ErrorConsts) (s : State) (payload : List Result)
    (hnil : NilFree payload) (h : ownerIds payload = []) :
    PostContainerInterfaces E s (some payload) =
      (sendjson (.error (NewBambouError E.ContainerCannotCreate
        "Cannot find a valid Container Name in the 'sandbox' field")) StatusBadRequest, s) := by
  have hscan := scanResults_cases payload hnil
  rw [h] at hscan
  simp [PostContainerInterfaces, hscan]

theorem PostContainerInterfaces_many_owners (E : ErrorConsts) (s : State)
    (payload : List Result) (a b : String) (rest : List String) (hnil : NilFree payload)
    (h : ownerIds payload = a :: b :: rest) :
    PostContainerInterfaces E s (some payload) =
      (sendjson (.error (NewBambouError (E.ContainerCannotCreate ++ a)
        "Only one interface may specify the Container Name in the 'sandbox' field"))
        StatusBadRequest, s) := by
  have hscan := scanResults_cases payload hnil
  rw [h] at hscan
  exact PostContainerInterfaces_ambiguous E s payload a hscan

theorem PostContainerInterfaces_present (E : ErrorConsts) (s : State)
    (payload : List Result) (a : String) (hnil : NilFree payload)
    (h : ownerIds payload = [a]) (hk : a ∈ s.Interfaces.keys) :
    PostContainerInterfaces E s (some payload) =
      (sendjson (.error (NewBambouError (E.ContainerCannotCreate ++ a)
        "Network interfaces information for given container already exist"))
        StatusConflict, s) := by
  have hscan := scanResults_cases payload hnil
  rw [h] at hscan
  obtain ⟨hok, hne⟩ := hscan
  obtain ⟨v, hv⟩ := Option.isSome_iff_exists.mp
    ((GoMap.lookup_isSome_iff s.Interfaces a).mpr hk)
  simp [PostContainerInterfaces, hok, hne, hv]

theorem PostContainerInterfaces_absent (E : ErrorConsts) (s : State)
    (payload : List Result) (a : String) (hnil : NilFree payload)
    (h : ownerIds payload = [a]) (hk : a ∉ s.Interfaces.keys) :
    PostContainerInterfaces E s (some payload) =
      (sendjson .null StatusCreated,
        { s with Interfaces := s.Interfaces.set a payload }) := by
  have hscan := scanResults_cases payload hnil
  rw [h] at hscan
  obtain ⟨hok, hne⟩ := hscan
  have hv := (GoMap.lookup_eq_none_iff s.Interfaces a).mpr hk
  simp [PostContainerInterfaces, hok, hne, hv]

/-- PostContainerInterfaces either leaves the state as it was, or it assigns a
payload without nil interface, whose only owner identifier was not a key, at
that identifier, and sends 201. -/
theorem PostContainerInterfaces_cases (E : ErrorConsts) (s : State)
    (body : Option (List Result)) :
    (PostContainerInterfaces E s body).2 = s ∨
    ∃ payload a, body = some payload ∧ NilFree payload ∧ ownerIds payload = [a] ∧
      a ∉ s.Interfaces.keys ∧
      PostContainerInterfaces E s body =
        (sendjson .null StatusCreated, { s with Interfaces := s.Interfaces.set a payload }) := by
  cases body with
  | none => exact Or.inl rfl
  | some payload =>
    cases hscan : scanResults payload "" with
    | nilDeref => exact Or.inl (by rw [PostContainerInterfaces_nilDeref E s payload hscan])
    | ambiguous a => exact Or.inl (by rw [PostContainerInterfaces_ambiguous E s payload a hscan])
    | ok name =>
      have hnil := scanResults_ok_nilFree payload "" name hscan
      cases ho : ownerIds payload with
      | nil => exact Or.inl (by rw [PostContainerInterfaces_no_owner E s payload hnil ho])
      | cons a rest =>
        cases rest with
        | cons b rest2 =>
          exact Or.inl (by rw [PostContainerInterfaces_many_owners E s payload a b rest2 hnil ho])
        | nil =>
          by_cases hk : a ∈ s.Interfaces.keys
          · exact Or.inl (by rw [PostContainerInterfaces_present E s payload a hnil ho hk])
          · exact Or.inr ⟨payload, a, rfl, hnil, ho, hk,
              PostContainerInterfaces_absent E s payload a hnil ho hk⟩

/-- For a decodable payload without nil interface, with n the number of
individual interfaces over all records whose sandbox is non-empty:
PostContainerInterfaces answers 400 exactly when n is not 1; when n is 1 it
answers 409 if that identifier is already a key of Interfaces, and otherwise
answers 201 and assigns the whole payload at that identifier. -/
theorem PostContainerInterfaces_classification_of_nilFree (E : ErrorConsts) (s : State)
    (payload : List Result) (hnil : NilFree payload) :
    ((PostContainerInterfaces E s (some payload)).1.status = 400 ↔
      (ownerIds payload).length ≠ 1) ∧
    match ownerIds payload with
    | [id] =>
      if id ∈ s.Interfaces.keys then (PostContainerInterfaces E s (some payload)).1.status = 409
      else (PostContainerInterfaces E s (some payload)).1.status = 201 ∧
        (PostContainerInterfaces E s (some payload)).2.Interfaces
          = s.Interfaces.set id payload
    | _ => True := by
  cases h : ownerIds payload with
  | nil =>
    simp [PostContainerInterfaces_no_owner E s payload hnil h, sendjson, StatusBadRequest]
  | cons a rest =>
    cases rest with
    | cons b rest2 =>
      simp [PostContainerInterfaces_many_owners E s payload a b rest2 hnil h, sendjson,
        StatusBadRequest]
    | nil =>
      by_cases hk : a ∈ s.Interfaces.keys
      · simp [PostContainerInterfaces_present E s payload a hnil h hk, hk, sendjson,
          StatusConflict]
      · simp [PostContainerInterfaces_absent E s payload a hnil h hk, hk, sendjson,
          StatusCreated]

/-- C3 (evaluation at the failing input). The payload of one record whose only
interface is a nil pointer (JSON `[{"interfaces":[null]}]`) has no interface
with a non-empty sandbox, n = 0, yet PostContainerInterfaces does not answer
400: the scan reads `iface.Sandbox` through the nil pointer and the handler
panics, so no status is sent; the caches stay as they were. -/
theorem PostContainerInterfaces_nil_interface_panics :
    (ownerIds [⟨[none], ""⟩]).length = 0 ∧
    PostContainerInterfaces sampleErrors State.init (some [⟨[none], ""⟩])
      = (Response.aborted, State.init) ∧
    (PostContainerInterfaces sampleErrors State.init (some [⟨[none], ""⟩])).1.status ≠ 400 := by
  decide

/-! ## Interfaces: the owner invariant -/

theorem OwnerInvariant_init : OwnerInvariant State.init := by
  intro k rs h
  simp [State.init, GoMap.lookup] at h

theorem OwnerInvariant_of_eq (s t : State) (h : t.Interfaces = s.Interfaces)
    (hs : OwnerInvariant s) : OwnerInvariant t := by
  intro k rs hk
  rw [h] at hk
  exact hs k rs hk

theorem OwnerInvariant_set (s : State) (name : String) (payload : List Result)
    (hs : OwnerInvariant s)
    (hp : (ownerIds payload).length ≤ 1 ∧ ∀ id ∈ ownerIds payload, id = name) :
    OwnerInvariant { s with Interfaces := s.Interfaces.set name payload } := by
  intro k rs hk
  by_cases hkn : name = k
  · subst hkn
    simp only [GoMap.lookup_set_same, Option.some.injEq] at hk
    subst hk
    exact hp
  · simp only [GoMap.lookup_set_ne _ _ _ _ hkn] at hk
    exact hs k rs hk

theorem OwnerInvariant_delete (s : State) (name : String) (hs : OwnerInvariant s) :
    OwnerInvariant { s with Interfaces := s.Interfaces.delete name } := by
  intro k rs hk
  by_cases hkn : name = k
  · subst hkn
    simp [GoMap.lookup_delete_same] at hk
  · simp only [GoMap.lookup_delete_ne _ _ _ hkn] at hk
    exact hs k rs hk

theorem OwnerInvariant_PostContainerInterfaces (E : ErrorConsts) (s : State)
    (body : Option (List Result)) (hs : OwnerInvariant s) :
    OwnerInvariant (PostContainerInterfaces E s body).2 := by
  rcases PostContainerInterfaces_cases E s body with h | ⟨payload, a, _, _, ho, _, heq⟩
  · rw [h]
    exact hs
  · rw [heq]
    exact OwnerInvariant_set s a payload hs (by simp [ho])

theorem OwnerInvariant_step (E : ErrorConsts) (s : State) (c : Call)
    (hc : c.respectsOwner) (hs : OwnerInvariant s) : OwnerInvariant (step E s c).2 := by
  cases c with
  | PostNetwork body =>
    apply OwnerInvariant_of_eq s _ _ hs
    simp only [step, PostNetwork]
    split
    · rfl
    · split
      · rfl
      · split <;> rfl
  | GetNetworks => exact hs
  | GetNetwork name =>
    apply OwnerInvariant_of_eq s _ _ hs
    simp only [step, GetNetwork]
    split <;> rfl
  | DeleteNetwork name =>
    apply OwnerInvariant_of_eq s _ _ hs
    simp only [step, DeleteNetwork]
    split <;> rfl
  | PutContainer name body =>
    apply OwnerInvariant_of_eq s _ _ hs
    simp only [step, PutContainer]
    split <;> rfl
  | GetContainers => exact hs
  | GetContainer name =>
    apply OwnerInvariant_of_eq s _ _ hs
    simp only [step, GetContainer]
    split <;> rfl
  | DeleteContainer name =>
    apply OwnerInvariant_of_eq s _ _ hs
    simp only [step, DeleteContainer]
    split <;> rfl
  | PostContainerInterfaces body => exact OwnerInvariant_PostContainerInterfaces E s body hs
  | PutContainerInterfaces name body =>
    cases body with
    | none => exact hs
    | some payload => exact OwnerInvariant_set s name payload hs hc
  | GetInterfaces => exact hs
  | GetContainerInterfaces name =>
    apply OwnerInvariant_of_eq s _ _ hs
    simp only [step, GetContainerInterfaces]
    split <;> rfl
  | DeleteContainerInterfaces name =>
    simp only [step, DeleteContainerInterfaces]
    split
    · exact OwnerInvariant_delete s name hs
    · exact hs

theorem OwnerInvariant_run (E : ErrorConsts) (calls : List Call) :
    ∀ s : State, (∀ c ∈ calls, c.respectsOwner) → OwnerInvariant s →
      OwnerInvariant (run E s calls) := by
  induction calls with
  | nil => intro s _ hs; exact hs
  | cons c cs ih =>
    intro s hc hs
    simp only [run]
    apply ih
    · intro d hd
      exact hc d (List.mem_cons_of_mem _ hd)
    · exact OwnerInvariant_step E s c (hc c (List.mem_cons_self _ _)) hs

/-- C4 (counterexample). A single PutContainerInterfaces at path "a" with one
record holding two interfaces, whose sandboxes are "b" and "c", is answered 200
and leaves under key "a" a sequence with two non-empty owner identifiers, none
equal to the key: the reached state breaks the owner invariant. -/
theorem OwnerInvariant_broken_by_put :
    (PutContainerInterfaces sampleErrors State.init "a"
      (some [⟨[some ⟨"eth0", "", "b"⟩, some ⟨"eth1", "", "c"⟩], ""⟩])).1.status = 200 ∧
    Reachable sampleErrors (run sampleErrors State.init
      [.PutContainerInterfaces "a" (some [⟨[some ⟨"eth0", "", "b"⟩, some ⟨"eth1", "", "c"⟩], ""⟩])]) ∧
    ¬ OwnerInvariant (run sampleErrors State.init
      [.PutContainerInterfaces "a" (some [⟨[some ⟨"eth0", "", "b"⟩, some ⟨"eth1", "", "c"⟩], ""⟩])]) := by
  refine ⟨by decide, ⟨_, rfl⟩, ?_⟩
  intro h
  have h2 := (h "a" [⟨[some ⟨"eth0", "", "b"⟩, some ⟨"eth1", "", "c"⟩], ""⟩] (by decide)).1
  revert h2
  decide

/-- A PutContainerInterfaces that does not respect the owner rule leaves,
under its path name, an entry that breaks the owner invariant. -/
theorem OwnerInvariant_broken_of_not_respectsOwner (E : ErrorConsts) (s : State) (c : Call)
    (hc : ¬ c.respectsOwner) : ¬ OwnerInvariant (step E s c).2 := by
  cases c with
  | PutContainerInterfaces name body =>
    cases body with
    | none => exact absurd trivial hc
    | some payload =>
      intro hinv
      apply hc
      exact hinv name payload (by simp [step, PutContainerInterfaces, GoMap.lookup_set_same])
  | _ => exact absurd trivial hc

/-- C4 (amended). In every state reached from the three empty caches by a
sequence of handler calls in which each PutContainerInterfaces payload has at
most one non-empty owner identifier, equal to the path name, every sequence held
in Interfaces has at most one individual interface with a non-empty owner
identifier, and that identifier equals the key of the entry. The condition on
the puts cannot be dropped: on any state, a PutContainerInterfaces whose payload
does not meet it is followed by a state that breaks the invariant. -/
theorem OwnerInvariant_reachable (E : ErrorConsts) (calls : List Call)
    (hcalls : ∀ c ∈ calls, c.respectsOwner) :
    OwnerInvariant (run E State.init calls) ∧
    ∀ (s : State) (c : Call), ¬ c.respectsOwner → ¬ OwnerInvariant (step E s c).2 :=
  ⟨OwnerInvariant_run E calls State.init hcalls OwnerInvariant_init,
   fun s c hc => OwnerInvariant_broken_of_not_respectsOwner E s c hc⟩

/-- C4 (witness). A derive-key creation for owner "a", a put at path "b" of a
payload whose only owner identifier is "b", a put at "c" of a payload without
owner identifier and a delete of "c" respect the owner rule; the state they
reach holds the entries "a" and "b", each with its own key as only owner
identifier, and satisfies the invariant. -/
theorem OwnerInvariant_reachable_witness :
    (∀ c ∈ [Call.PostContainerInterfaces (some [⟨[some ⟨"eth0", "", "a"⟩], ""⟩]),
        Call.PutContainerInterfaces "b"
          (some [⟨[some ⟨"eth0", "", ""⟩, some ⟨"eth1", "", "b"⟩], ""⟩]),
        Call.PutContainerInterfaces "c" (some [⟨[some ⟨"eth0", "", ""⟩], ""⟩]),
        Call.DeleteContainerInterfaces "c"], c.respectsOwner) ∧
    (run sampleErrors State.init
      [Call.PostContainerInterfaces (some [⟨[some ⟨"eth0", "", "a"⟩], ""⟩]),
        Call.PutContainerInterfaces "b"
          (some [⟨[some ⟨"eth0", "", ""⟩, some ⟨"eth1", "", "b"⟩], ""⟩]),
        Call.PutContainerInterfaces "c" (some [⟨[some ⟨"eth0", "", ""⟩], ""⟩]),
        Call.DeleteContainerInterfaces "c"]).Interfaces
      = [("a", [⟨[some ⟨"eth0", "", "a"⟩], ""⟩]),
         ("b", [⟨[some ⟨"eth0", "", ""⟩, some ⟨"eth1", "", "b"⟩], ""⟩])] ∧
    ownerIds [⟨[some ⟨"eth0", "", "a"⟩], ""⟩] = ["a"] ∧
    ownerIds [⟨[some ⟨"eth0", "", ""⟩, some ⟨"eth1", "", "b"⟩], ""⟩] = ["b"] ∧
    OwnerInvariant (run sampleErrors State.init
      [Call.PostContainerInterfaces (some [⟨[some ⟨"eth0", "", "a"⟩], ""⟩]),
        Call.PutContainerInterfaces "b"
          (some [⟨[some ⟨"eth0", "", ""⟩, some ⟨"eth1", "", "b"⟩], ""⟩]),
        Call.PutContainerInterfaces "c" (some [⟨[some ⟨"eth0", "", ""⟩], ""⟩]),
        Call.DeleteContainerInterfaces "c"]) :=
  ⟨by simp [Call.respectsOwner, ownerIds, ifaceIds], by decide, by decide, by decide,
   (OwnerInvariant_reachable sampleErrors _
     (by simp [Call.respectsOwner, ownerIds, ifaceIds])).1⟩

/-! ## Containers: two puts at one path -/

/-- C5 (evaluation at the failing input). On the empty caches, two PUTs at path
"a", the first with a descriptor named "a" and the second with a descriptor
named "b", are both answered 201; the GET at path "a" that follows is answered
200 with the first descriptor, not the latest one, which went to key "b". -/
theorem PutContainer_twice_serves_first :
    (trace sampleErrors State.init
      [.PutContainer "a" (some ⟨"a", "one"⟩), .PutContainer "a" (some ⟨"b", "two"⟩),
        .GetContainer "a"])
      = [sendjson .null 201, sendjson .null 201, sendjson (.container ⟨"a", "one"⟩) 200] := by
  decide

/-! ## Networks: round trip -/

/-- When a payload without nil interface has exactly one non-empty owner
identifier and that identifier is not a key of Interfaces,
PostContainerInterfaces answers 201 and GetContainerInterfaces on the identifier
answers 200 with the payload; posting any such payload with the same single
identifier again answers 409, and the entry under the identifier is still the
first payload. -/
theorem PostContainerInterfaces_round_trip_of_nilFree (E : ErrorConsts) (s : State)
    (payload again : List Result) (id : String)
    (hnil : NilFree payload) (hone : ownerIds payload = [id])
    (habsent : id ∉ s.Interfaces.keys)
    (hnil2 : NilFree again) (hagain : ownerIds again = [id]) :
    trace E s [.PostContainerInterfaces (some payload), .GetContainerInterfaces id,
        .PostContainerInterfaces (some again), .GetContainerInterfaces id]
      = [sendjson .null 201,
         sendjson (.results payload) 200,
         sendjson (.error (NewBambouError (E.ContainerCannotCreate ++ id)
           "Network interfaces information for given container already exist")) 409,
         sendjson (.results payload) 200] := by
  have hpresent : id ∈ (GoMap.set s.Interfaces id payload).keys :=
    (GoMap.lookup_isSome_iff _ _).mp (by simp [GoMap.lookup_set_same])
  have h2 := PostContainerInterfaces_present E
    { s with Interfaces := s.Interfaces.set id payload } again id hnil2 hagain hpresent
  simp [trace, step, PostContainerInterfaces_absent E s payload id hnil hone habsent, h2,
    GetContainerInterfaces, GoMap.lookup_set_same, StatusCreated, StatusOK, StatusConflict]

/-- C8 (evaluation at the failing input). On the empty caches, the payload of
one record with an interface of sandbox "a" followed by a nil pointer (JSON
`[{"interfaces":[{"sandbox":"a"},null]}]`) has exactly one non-empty owner
identifier, "a", which is not a key; yet PostContainerInterfaces does not answer
201: the scan reaches the nil pointer and the handler panics, nothing is stored,
and GetContainerInterfaces on "a" then answers 404. -/
theorem PostContainerInterfaces_round_trip_panics :
    ownerIds [⟨[some ⟨"eth0", "", "a"⟩, none], ""⟩] = ["a"] ∧
    "a" ∉ State.init.Interfaces.keys ∧
    trace sampleErrors State.init
      [.PostContainerInterfaces (some [⟨[some ⟨"eth0", "", "a"⟩, none], ""⟩]),
        .GetContainerInterfaces "a"]
      = [Response.aborted,
         sendjson (.error (NewBambouError (sampleErrors.ContainerNotFound ++ "a") "")) 404] := by
  decide

/-! ## Delete of an absent key -/

/-- C9. For each of DeleteNetwork, DeleteContainer and
DeleteContainerInterfaces: when the name is not a key of the corresponding
cache, the handler answers 404 and the three caches are as before. -/
theorem Delete_absent_not_found (E : ErrorConsts) (s : State) (name : String) :
    (name ∉ s.Networks.keys →
      (DeleteNetwork E s name).1.status = 404 ∧ (DeleteNetwork E s name).2 = s) ∧
    (name ∉ s.Containers.keys →
      (DeleteContainer E s name).1.status = 404 ∧ (DeleteContainer E s name).2 = s) ∧
    (name ∉ s.Interfaces.keys →
      (DeleteContainerInterfaces E s name).1.status = 404 ∧
        (DeleteContainerInterfaces E s name).2 = s) := by
  refine ⟨fun h => ?_, fun h => ?_, fun h => ?_⟩
  · have hv := (GoMap.lookup_eq_none_iff s.Networks name).mpr h
    simp [DeleteNetwork, hv, sendjson, StatusNotFound]
  · have hv := (GoMap.lookup_eq_none_iff s.Containers name).mpr h
    simp [DeleteContainer, hv, sendjson, StatusNotFound]
  · have hv := (GoMap.lookup_eq_none_iff s.Interfaces name).mpr h
    simp [DeleteContainerInterfaces, hv, sendjson, StatusNotFound]

/-- C9 (witness). In a state with one entry "x" in each cache, the three deletes
of "y" answer 404 and leave the state as it was. -/
theorem Delete_absent_not_found_witness :
    (DeleteNetwork sampleErrors ⟨[("x", ⟨"x", ""⟩)], [("x", ⟨"x", ""⟩)], [("x", [])]⟩ "y")
      = (sendjson (.error ⟨"NetworkNotFound: y", ""⟩) 404,
          ⟨[("x", ⟨"x", ""⟩)], [("x", ⟨"x", ""⟩)], [("x", [])]⟩) ∧
    (DeleteContainer sampleErrors ⟨[("x", ⟨"x", ""⟩)], [("x", ⟨"x", ""⟩)], [("x", [])]⟩
      "y").2 = ⟨[("x", ⟨"x", ""⟩)], [("x", ⟨"x", ""⟩)], [("x", [])]⟩ ∧
    (DeleteContainerInterfaces sampleErrors
      ⟨[("x", ⟨"x", ""⟩)], [("x", ⟨"x", ""⟩)], [("x", [])]⟩ "y").1.status = 404 := by
  have h := Delete_absent_not_found sampleErrors
    ⟨[("x", ⟨"x", ""⟩)], [("x", ⟨"x", ""⟩)], [("x", [])]⟩ "y"
  refine ⟨by decide, (h.2.1 (by decide)).2, (h.2.2 (by decide)).1⟩

/-! ## Get by name -/

theorem GoMap.not_mem_keys_delete {V : Type} (m : GoMap V) (k : String) :
    k ∉ (m.delete k).keys :=
  (GoMap.lookup_eq_none_iff _ _).mp (GoMap.lookup_delete_same m k)

/-- C11. For each of DeleteNetwork, DeleteContainer and
DeleteContainerInterfaces: when the name is a key of the corresponding cache,
the handler writes nothing (status 200, no body), the name is no longer a key
afterwards, every other key reads as before, and the get-by-name on that name
that follows answers 404. -/
theorem Delete_present_removes (E : ErrorConsts) (s : State) (name : String) :
    (name ∈ s.Networks.keys →
      (DeleteNetwork E s name).1 = Response.unwritten ∧
      name ∉ (DeleteNetwork E s name).2.Networks.keys ∧
      (∀ j, j ≠ name →
        (DeleteNetwork E s name).2.Networks.lookup j = s.Networks.lookup j) ∧
      (GetNetwork E (DeleteNetwork E s name).2 name).1.status = 404) ∧
    (name ∈ s.Containers.keys →
      (DeleteContainer E s name).1 = Response.unwritten ∧
      name ∉ (DeleteContainer E s name).2.Containers.keys ∧
      (∀ j, j ≠ name →
        (DeleteContainer E s name).2.Containers.lookup j = s.Containers.lookup j) ∧
      (GetContainer E (DeleteContainer E s name).2 name).1.status = 404) ∧
    (name ∈ s.Interfaces.keys →
      (DeleteContainerInterfaces E s name).1 = Response.unwritten ∧
      name ∉ (DeleteContainerInterfaces E s name).2.Interfaces.keys ∧
      (∀ j, j ≠ name →
        (DeleteContainerInterfaces E s name).2.Interfaces.lookup j = s.Interfaces.lookup j) ∧
      (GetContainerInterfaces E (DeleteContainerInterfaces E s name).2 name).1.status
        = 404) := by
  refine ⟨fun h => ?_, fun h => ?_, fun h => ?_⟩
  · obtain ⟨v, hv⟩ := Option.isSome_iff_exists.mp ((GoMap.lookup_isSome_iff _ _).mpr h)
    refine ⟨by simp [DeleteNetwork, hv], ?_, ?_, ?_⟩
    · simpa [DeleteNetwork, hv] using GoMap.not_mem_keys_delete s.Networks name
    · intro j hj
      simpa [DeleteNetwork, hv] using GoMap.lookup_delete_ne s.Networks name j (Ne.symm hj)
    · simp [DeleteNetwork, hv, GetNetwork, GoMap.lookup_delete_same, sendjson, StatusNotFound]
  · obtain ⟨v, hv⟩ := Option.isSome_iff_exists.mp ((GoMap.lookup_isSome_iff _ _).mpr h)
    refine ⟨by simp [DeleteContainer, hv], ?_, ?_, ?_⟩
    · simpa [DeleteContainer, hv] using GoMap.not_mem_keys_delete s.Containers name
    · intro j hj
      simpa [DeleteContainer, hv] using
        GoMap.lookup_delete_ne s.Containers name j (Ne.symm hj)
    · simp [DeleteContainer, hv, GetContainer, GoMap.lookup_delete_same, sendjson,
        StatusNotFound]
  · obtain ⟨v, hv⟩ := Option.isSome_iff_exists.mp ((GoMap.lookup_isSome_iff _ _).mpr h)
    refine ⟨by simp [DeleteContainerInterfaces, hv], ?_, ?_, ?_⟩
    · simpa [DeleteContainerInterfaces, hv] using
        GoMap.not_mem_keys_delete s.Interfaces name
    · intro j hj
      simpa [DeleteContainerInterfaces, hv] using
        GoMap.lookup_delete_ne s.Interfaces name j (Ne.symm hj)
    · simp [DeleteContainerInterfaces, hv, GetContainerInterfaces,
        GoMap.lookup_delete_same, sendjson, StatusNotFound]

/-- C11 (witness). In a state where "x" and "y" are keys of Networks, deleting
"x" writes nothing, removes "x" and keeps "y". -/
theorem Delete_present_removes_witness :
    (DeleteNetwork sampleErrors ⟨[], [("x", ⟨"x", "1"⟩), ("y", ⟨"y", "2"⟩)], []⟩ "x").1
      = Response.unwritten ∧
    "x" ∉ (DeleteNetwork sampleErrors
      ⟨[], [("x", ⟨"x", "1"⟩), ("y", ⟨"y", "2"⟩)], []⟩ "x").2.Networks.keys ∧
    (DeleteNetwork sampleErrors
      ⟨[], [("x", ⟨"x", "1"⟩), ("y", ⟨"y", "2"⟩)], []⟩ "x").2.Networks.lookup "y"
      = some ⟨"y", "2"⟩ := by
  have h := (Delete_present_removes sampleErrors
    ⟨[], [("x", ⟨"x", "1"⟩), ("y", ⟨"y", "2"⟩)], []⟩ "x").1 (by decide)
  exact ⟨h.1, h.2.1, (h.2.2.1 "y" (by decide)).trans (by decide)⟩

/-! ## Listing -/

theorem GoMap.keys_set_subset {V : Type} (m : GoMap V) (k : String) (v : V) :
    ∀ j ∈ (m.set k v).keys, j = k ∨ j ∈ m.keys := by
  induction m with
  | nil => simp [GoMap.set, GoMap.keys]
  | cons e rest ih =>
    obtain ⟨k1, v1⟩ := e
    intro j hj
    by_cases h : k1 = k
    · subst h
      simp only [GoMap.set, GoMap.keys, if_true, List.map_cons, List.mem_cons] at hj ⊢
      rcases hj with hj | hj
      · exact Or.inl hj
      · exact Or.inr (Or.inr hj)
    · simp only [GoMap.set, GoMap.keys, h, if_false, List.map_cons, List.mem_cons] at hj ⊢
      rcases hj with hj | hj
      · exact Or.inr (Or.inl hj)
      · rcases ih j hj with h2 | h2
        · exact Or.inl h2
        · exact Or.inr (Or.inr h2)

theorem GoMap.WF_set {V : Type} (m : GoMap V) (k : String) (v : V) (hm : m.WF) :
    (m.set k v).WF := by
  induction m with
  | nil => simp [GoMap.set, GoMap.WF, GoMap.keys]
  | cons e rest ih =>
    obtain ⟨k1, v1⟩ := e
    simp only [GoMap.WF, GoMap.keys, List.map_cons, List.nodup_cons] at hm
    by_cases h : k1 = k
    · subst h
      simpa [GoMap.set, GoMap.WF, GoMap.keys] using hm
    · simp only [GoMap.set, h, if_false, GoMap.WF, GoMap.keys, List.map_cons,
        List.nodup_cons]
      refine ⟨fun hmem => ?_, ih hm.2⟩
      rcases GoMap.keys_set_subset rest k v k1 hmem with h2 | h2
      · exact h h2
      · exact hm.1 h2

theorem GoMap.keys_delete_subset {V : Type} (m : GoMap V) (k : String) :
    ∀ j ∈ (m.delete k).keys, j ∈ m.keys := by
  induction m with
  | nil => simp [GoMap.delete]
  | cons e rest ih =>
    obtain ⟨k1, v1⟩ := e
    intro j hj
    by_cases h : k1 = k
    · simp only [GoMap.delete, h, if_true] at hj
      simp only [GoMap.keys, List.map_cons, List.mem_cons]
      exact Or.inr (ih j hj)
    · simp only [GoMap.delete, h, if_false, GoMap.keys, List.map_cons, List.mem_cons] at hj ⊢
      rcases hj with hj | hj
      · exact Or.inl hj
      · exact Or.inr (ih j hj)

theorem GoMap.WF_delete {V : Type} (m : GoMap V) (k : String) (hm : m.WF) :
    (m.delete k).WF := by
  induction m with
  | nil => simp [GoMap.delete, GoMap.WF, GoMap.keys]
  | cons e rest ih =>
    obtain ⟨k1, v1⟩ := e
    simp only [GoMap.WF, GoMap.keys, List.map_cons, List.nodup_cons] at hm
    by_cases h : k1 = k
    · simpa [GoMap.delete, h] using ih hm.2
    · simp only [GoMap.delete, h, if_false, GoMap.WF, GoMap.keys, List.map_cons,
        List.nodup_cons]
      exact ⟨fun hmem => hm.1 (GoMap.keys_delete_subset rest k k1 hmem), ih hm.2⟩

theorem WF_init : State.WF State.init := by
  simp [State.WF, State.init, GoMap.WF, GoMap.keys]

theorem WF_step (E : ErrorConsts) (s : State) (c : Call) (hs : s.WF) : (step E s c).2.WF := by
  obtain ⟨hc, hn, hi⟩ := hs
  cases c with
  | PostNetwork body =>
    simp only [step, PostNetwork]
    split
    · exact ⟨hc, hn, hi⟩
    · split
      · exact ⟨hc, hn, hi⟩
      · split
        · exact ⟨hc, hn, hi⟩
        · exact ⟨hc, GoMap.WF_set _ _ _ hn, hi⟩
  | GetNetworks => exact ⟨hc, hn, hi⟩
  | GetNetwork name =>
    simp only [step, GetNetwork]
    split <;> exact ⟨hc, hn, hi⟩
  | DeleteNetwork name =>
    simp only [step, DeleteNetwork]
    split
    · exact ⟨hc, GoMap.WF_delete _ _ hn, hi⟩
    · exact ⟨hc, hn, hi⟩
  | PutContainer name body =>
    simp only [step, PutContainer]
    split
    · exact ⟨hc, hn, hi⟩
    · exact ⟨GoMap.WF_set _ _ _ hc, hn, hi⟩
  | GetContainers => exact ⟨hc, hn, hi⟩
  | GetContainer name =>
    simp only [step, GetContainer]
    split <;> exact ⟨hc, hn, hi⟩
  | DeleteContainer name =>
    simp only [step, DeleteContainer]
    split
    · exact ⟨GoMap.WF_delete _ _ hc, hn, hi⟩
    · exact ⟨hc, hn, hi⟩
  | PostContainerInterfaces body =>
    simp only [step]
    rcases PostContainerInterfaces_cases E s body with h | ⟨payload, a, _, _, _, _, heq⟩
    · rw [h]
      exact ⟨hc, hn, hi⟩
    · rw [heq]
      exact ⟨hc, hn, GoMap.WF_set _ _ _ hi⟩
  | PutContainerInterfaces name body =>
    simp only [step, PutContainerInterfaces]
    split
    · exact ⟨hc, hn, hi⟩
    · exact ⟨hc, hn, GoMap.WF_set _ _ _ hi⟩
  | GetInterfaces => exact ⟨hc, hn, hi⟩
  | GetContainerInterfaces name =>
    simp only [step, GetContainerInterfaces]
    split <;> exact ⟨hc, hn, hi⟩
  | DeleteContainerInterfaces name =>
    simp only [step, DeleteContainerInterfaces]
    split
    · exact ⟨hc, hn, GoMap.WF_delete _ _ hi⟩
    · exact ⟨hc, hn, hi⟩

theorem WF_run (E : ErrorConsts) (calls : List Call) :
    ∀ s : State, s.WF → (run E s calls).WF := by
  induction calls with
  | nil => intro s hs; exact hs
  | cons c cs ih => intro s hs; exact ih _ (WF_step E s c hs)

theorem Reachable_WF (E : ErrorConsts) (s : State) (h : Reachable E s) : s.WF := by
  obtain ⟨calls, rfl⟩ := h
  exact WF_run E calls State.init WF_init

/-! ## Rejected requests -/

/-- C13. For PostNetwork, PutContainer, PostContainerInterfaces and
PutContainerInterfaces, on every state and request: when the answer has status
400 or 409, the three caches after the call are the caches before it. -/
theorem Rejected_request_keeps_state (E : ErrorConsts) (s : State) :
    (∀ body, (PostNetwork E s body).1.status = 400 ∨ (PostNetwork E s body).1.status = 409 →
      (PostNetwork E s body).2 = s) ∧
    (∀ name body, (PutContainer E s name body).1.status = 400 ∨
        (PutContainer E s name body).1.status = 409 →
      (PutContainer E s name body).2 = s) ∧
    (∀ body, (PostContainerInterfaces E s body).1.status = 400 ∨
        (PostContainerInterfaces E s body).1.status = 409 →
      (PostContainerInterfaces E s body).2 = s) ∧
    (∀ name body, (PutContainerInterfaces E s name body).1.status = 400 ∨
        (PutContainerInterfaces E s name body).1.status = 409 →
      (PutContainerInterfaces E s name body).2 = s) := by
  refine ⟨?_, ?_, ?_, ?_⟩
  · intro body h
    cases body with
    | none => rfl
    | some netconf =>
      by_cases h1 : netconf.Name = ""
      · simp [PostNetwork, h1]
      · cases hv : s.Networks.lookup netconf.Name with
        | some v => simp [PostNetwork, h1, hv]
        | none => simp [PostNetwork, h1, hv, sendjson, StatusCreated] at h
  · intro name body h
    cases body with
    | none => rfl
    | some newc => simp [PutContainer, sendjson, StatusCreated] at h
  · intro body h
    rcases PostContainerInterfaces_cases E s body with h2 | ⟨payload, a, _, _, _, _, heq⟩
    · exact h2
    · rw [heq] at h
      simp [sendjson, StatusCreated] at h
  · intro name body h
    cases body with
    | none => rfl
    | some payload => simp [PutContainerInterfaces, sendjson, StatusOK] at h

/-- C13 (witness). A configuration with an empty name, and a second creation
of "x", are rejected and leave the state as it was. -/
theorem Rejected_request_keeps_state_witness :
    (PostNetwork sampleErrors ⟨[], [("x", ⟨"x", "1"⟩)], []⟩ (some ⟨"", "2"⟩)).2
      = ⟨[], [("x", ⟨"x", "1"⟩)], []⟩ ∧
    (PostNetwork sampleErrors ⟨[], [("x", ⟨"x", "1"⟩)], []⟩ (some ⟨"x", "2"⟩)).2
      = ⟨[], [("x", ⟨"x", "1"⟩)], []⟩ :=
  ⟨(Rejected_request_keeps_state sampleErrors ⟨[], [("x", ⟨"x", "1"⟩)], []⟩).1
      (some ⟨"", "2"⟩) (Or.inl (by decide)),
   (Rejected_request_keeps_state sampleErrors ⟨[], [("x", ⟨"x", "1"⟩)], []⟩).1
      (some ⟨"x", "2"⟩) (Or.inr (by decide))⟩

/-! ## Container lifecycle -/

/-- C15. Every handler call, on every state, leaves the two caches of the other
resources as they were, and its response and its own cache afterwards depend
only on its own cache before: two states that hold the same cache for the
resource of the call get the same response and the same resulting cache. In
particular DeleteContainer changes neither Interfaces nor Networks. -/
theorem Caches_independent (E : ErrorConsts) (s : State) (c : Call) :
    (c.resource ≠ .networks → (step E s c).2.Networks = s.Networks) ∧
    (c.resource ≠ .containers → (step E s c).2.Containers = s.Containers) ∧
    (c.resource ≠ .interfaces → (step E s c).2.Interfaces = s.Interfaces) ∧
    (∀ t : State, State.agree c.resource s t →
      (step E s c).1 = (step E t c).1 ∧
      State.agree c.resource (step E s c).2 (step E t c).2) ∧
    (∀ name, (DeleteContainer E s name).2.Interfaces = s.Interfaces ∧
      (DeleteContainer E s name).2.Networks = s.Networks) := by
  refine ⟨?_, ?_, ?_, ?_, ?_⟩
  · intro h
    cases c <;> simp only [Call.resource, ne_eq, not_true_eq_false, reduceCtorEq] at h <;>
      simp only [step, PutContainer, GetContainers, GetContainer, DeleteContainer,
        PostContainerInterfaces, PutContainerInterfaces, GetInterfaces,
        GetContainerInterfaces, DeleteContainerInterfaces] <;>
      repeat (first | rfl | split)
  · intro h
    cases c <;> simp only [Call.resource, ne_eq, not_true_eq_false, reduceCtorEq] at h <;>
      simp only [step, PostNetwork, GetNetworks, GetNetwork, DeleteNetwork,
        PostContainerInterfaces, PutContainerInterfaces, GetInterfaces,
        GetContainerInterfaces, DeleteContainerInterfaces] <;>
      repeat (first | rfl | split)
  · intro h
    cases c <;> simp only [Call.resource, ne_eq, not_true_eq_false, reduceCtorEq] at h <;>
      simp only [step, PostNetwork, GetNetworks, GetNetwork, DeleteNetwork,
        PutContainer, GetContainers, GetContainer, DeleteContainer] <;>
      repeat (first | rfl | split)
  · intro t h
    obtain ⟨sc, sn, si⟩ := s
    obtain ⟨tc, tn, ti⟩ := t
    cases c <;> simp only [Call.resource, State.agree] at h ⊢ <;> subst h <;>
      simp only [step, PostNetwork, GetNetworks, GetNetwork, DeleteNetwork,
        PutContainer, GetContainers, GetContainer, DeleteContainer,
        PostContainerInterfaces, PutContainerInterfaces, GetInterfaces,
        GetContainerInterfaces, DeleteContainerInterfaces] <;>
      repeat (first | exact ⟨rfl, rfl⟩ | exact ⟨trivial, trivial⟩ | split)
  · intro name
    simp only [DeleteContainer]
    split <;> exact ⟨rfl, rfl⟩

/-- C15 (witness). Deleting container "x" leaves the Interfaces and Networks
entries of the same name in place. -/
theorem Caches_independent_witness :
    (DeleteContainer sampleErrors
      ⟨[("x", ⟨"x", ""⟩)], [("x", ⟨"x", "cfg"⟩)], [("x", [])]⟩ "x").2
      = ⟨[], [("x", ⟨"x", "cfg"⟩)], [("x", [])]⟩ ∧
    (step sampleErrors ⟨[("x", ⟨"x", ""⟩)], [("x", ⟨"x", "cfg"⟩)], [("x", [])]⟩
      (.DeleteContainer "x")).2.Networks = [("x", ⟨"x", "cfg"⟩)] :=
  ⟨by decide,
   (Caches_independent sampleErrors ⟨[("x", ⟨"x", ""⟩)], [("x", ⟨"x", "cfg"⟩)], [("x", [])]⟩
     (.DeleteContainer "x")).1 (by decide)⟩

/-! ## Keys and names -/

theorem GoMap.forall_lookup_set {V : Type} (P : String → V → Prop) (m : GoMap V)
    (k : String) (v : V) (hm : ∀ j w, m.lookup j = some w → P j w) (hp : P k v) :
    ∀ j w, (m.set k v).lookup j = some w → P j w := by
  intro j w hj
  by_cases hkj : k = j
  · subst hkj
    rw [GoMap.lookup_set_same] at hj
    cases hj
    exact hp
  · rw [GoMap.lookup_set_ne _ _ _ _ hkj] at hj
    exact hm j w hj

theorem GoMap.forall_lookup_delete {V : Type} (P : String → V → Prop) (m : GoMap V)
    (k : String) (hm : ∀ j w, m.lookup j = some w → P j w) :
    ∀ j w, (m.delete k).lookup j = some w → P j w := by
  intro j w hj
  by_cases hkj : k = j
  · subst hkj
    rw [GoMap.lookup_delete_same] at hj
    cases hj
  · rw [GoMap.lookup_delete_ne _ _ _ hkj] at hj
    exact hm j w hj

theorem KeyNameInvariant_init : KeyNameInvariant State.init := by
  constructor <;> intro k v h <;> simp [State.init, GoMap.lookup] at h

theorem KeyNameInvariant_step (E : ErrorConsts) (s : State) (c : Call)
    (hs : KeyNameInvariant s) : KeyNameInvariant (step E s c).2 := by
  obtain ⟨hn, hc⟩ := hs
  cases c with
  | PostNetwork body =>
    simp only [step, PostNetwork]
    split
    · exact ⟨hn, hc⟩
    · rename_i netconf
      split
      · exact ⟨hn, hc⟩
      · rename_i hname
        split
        · exact ⟨hn, hc⟩
        · exact ⟨GoMap.forall_lookup_set (fun k (v : NetConf) => k ≠ "" ∧ k = v.Name) _ _ _ hn
            ⟨hname, rfl⟩, hc⟩
  | GetNetworks => exact ⟨hn, hc⟩
  | GetNetwork name =>
    simp only [step, GetNetwork]
    split <;> exact ⟨hn, hc⟩
  | DeleteNetwork name =>
    simp only [step, DeleteNetwork]
    split
    · exact ⟨GoMap.forall_lookup_delete (fun k (v : NetConf) => k ≠ "" ∧ k = v.Name) _ _ hn, hc⟩
    · exact ⟨hn, hc⟩
  | PutContainer name body =>
    simp only [step, PutContainer]
    split
    · exact ⟨hn, hc⟩
    · exact ⟨hn, GoMap.forall_lookup_set (fun k (v : Container) => k = v.Name) _ _ _ hc rfl⟩
  | GetContainers => exact ⟨hn, hc⟩
  | GetContainer name =>
    simp only [step, GetContainer]
    split <;> exact ⟨hn, hc⟩
  | DeleteContainer name =>
    simp only [step, DeleteContainer]
    split
    · exact ⟨hn, GoMap.forall_lookup_delete (fun k (v : Container) => k = v.Name) _ _ hc⟩
    · exact ⟨hn, hc⟩
  | PostContainerInterfaces body =>
    simp only [step, PostContainerInterfaces]
    repeat (first | exact ⟨hn, hc⟩ | split)
  | PutContainerInterfaces name body =>
    simp only [step, PutContainerInterfaces]
    split <;> exact ⟨hn, hc⟩
  | GetInterfaces => exact ⟨hn, hc⟩
  | GetContainerInterfaces name =>
    simp only [step, GetContainerInterfaces]
    split <;> exact ⟨hn, hc⟩
  | DeleteContainerInterfaces name =>
    simp only [step, DeleteContainerInterfaces]
    split <;> exact ⟨hn, hc⟩

theorem KeyNameInvariant_run (E : ErrorConsts) (calls : List Call) :
    ∀ s : State, KeyNameInvariant s → KeyNameInvariant (run E s calls) := by
  induction calls with
  | nil => intro s hs; exact hs
  | cons c cs ih => intro s hs; exact ih _ (KeyNameInvariant_step E s c hs)

/-- C17. In every state reachable from the three empty caches by a sequence of
handler calls, every entry of Networks has a non-empty key equal to the name of
the configuration stored under it, and every entry of Containers has a key
equal to the Name of the descriptor stored under it. -/
theorem KeyNameInvariant_reachable (E : ErrorConsts) (s : State) (h : Reachable E s) :
    KeyNameInvariant s := by
  obtain ⟨calls, rfl⟩ := h
  exact KeyNameInvariant_run E calls State.init KeyNameInvariant_init

/-- C17 (witness). The state after creating network "net1", putting at path "a"
a descriptor named "b", and deleting container "a" (absent) is reachable and
satisfies the invariant. -/
theorem KeyNameInvariant_reachable_witness :
    Reachable sampleErrors (run sampleErrors State.init
      [.PostNetwork (some ⟨"net1", "cfg"⟩), .PutContainer "a" (some ⟨"b", "x"⟩),
        .DeleteContainer "a"]) ∧
    KeyNameInvariant (run sampleErrors State.init
      [.PostNetwork (some ⟨"net1", "cfg"⟩), .PutContainer "a" (some ⟨"b", "x"⟩),
        .DeleteContainer "a"]) :=
  ⟨⟨_, rfl⟩, KeyNameInvariant_reachable sampleErrors _ ⟨_, rfl⟩⟩

/-! ## PutContainer and the path name -/

/-- C18. For every state, decodable descriptor d and path names p and q,
PutContainer at p and PutContainer at q with body d give the same response,
of status 201, and the same state afterwards: Containers is the cache before
with d assigned at key d.Name (the empty key when d.Name is empty), so that
d.Name reads d and every other key reads as before. -/
theorem PutContainer_path_irrelevant (E : ErrorConsts) (s : State) (d : Container)
    (p q : String) :
    PutContainer E s p (some d) = PutContainer E s q (some d) ∧
    (PutContainer E s p (some d)).1.status = 201 ∧
    (PutContainer E s p (some d)).2.Containers = s.Containers.set d.Name d ∧
    (PutContainer E s p (some d)).2.Containers.lookup d.Name = some d ∧
    (∀ j, j ≠ d.Name →
      (PutContainer E s p (some d)).2.Containers.lookup j = s.Containers.lookup j) := by
  refine ⟨rfl, rfl, rfl, ?_, ?_⟩
  · simp [PutContainer, GoMap.lookup_set_same]
  · intro j hj
    simpa [PutContainer] using GoMap.lookup_set_ne s.Containers d.Name j d (Ne.symm hj)

/-! ## Derive-key creation and the order of the payload -/

theorem ifaceIds_perm (l1 l2 : List (Option Interface)) (h : l1.Perm l2) :
    (ifaceIds l1).Perm (ifaceIds l2) :=
  ((h.filterMap _).filter _).map _

theorem ownerIds_perm_of_records (p1 p2 : List Result)
    (h : List.Forall₂ ReorderedRecord p1 p2) : (ownerIds p1).Perm (ownerIds p2) := by
  induction h with
  | nil => exact List.Perm.refl _
  | cons hr _ ih =>
    simp only [ownerIds]
    exact (ifaceIds_perm _ _ hr.1).append ih

theorem ownerIds_perm (p1 p2 : List Result) (h : p1.Perm p2) :
    (ownerIds p1).Perm (ownerIds p2) := by
  induction h with
  | nil => exact List.Perm.refl _
  | cons r _ ih =>
    simp only [ownerIds]
    exact List.Perm.append_left _ ih
  | swap r1 r2 l =>
    simp only [ownerIds, ← List.append_assoc]
    exact List.Perm.append_right _ List.perm_append_comm
  | trans _ _ ih1 ih2 => exact ih1.trans ih2

theorem ownerIds_reordered (p1 p2 : List Result) (h : Reordered p1 p2) :
    (ownerIds p1).Perm (ownerIds p2) := by
  obtain ⟨mid, h1, h2⟩ := h
  exact (ownerIds_perm_of_records p1 mid h1).trans (ownerIds_perm mid p2 h2)

/-- For every Interfaces cache and every two decodable payloads without nil
interface, the second being the first with its records, and the interfaces
inside its records, put in another order: PostContainerInterfaces answers both
with the same status, and when that status is 201 both payloads are inserted
under the same key. -/
theorem PostContainerInterfaces_order_independent_of_nilFree (E : ErrorConsts) (s : State)
    (p1 p2 : List Result) (hnil1 : NilFree p1) (hnil2 : NilFree p2) (h : Reordered p1 p2) :
    (PostContainerInterfaces E s (some p1)).1.status
      = (PostContainerInterfaces E s (some p2)).1.status ∧
    ((PostContainerInterfaces E s (some p1)).1.status = 201 →
      ∃ id, (PostContainerInterfaces E s (some p1)).2.Interfaces = s.Interfaces.set id p1 ∧
        (PostContainerInterfaces E s (some p2)).2.Interfaces = s.Interfaces.set id p2) := by
  have hperm := ownerIds_reordered p1 p2 h
  cases h1 : ownerIds p1 with
  | nil =>
    rw [h1] at hperm
    have h2 : ownerIds p2 = [] := hperm.symm.eq_nil
    rw [PostContainerInterfaces_no_owner E s p1 hnil1 h1,
      PostContainerInterfaces_no_owner E s p2 hnil2 h2]
    simp [sendjson, StatusBadRequest]
  | cons a rest =>
    cases rest with
    | nil =>
      rw [h1] at hperm
      have h2 : ownerIds p2 = [a] := hperm.symm.eq_singleton
      by_cases hk : a ∈ s.Interfaces.keys
      · rw [PostContainerInterfaces_present E s p1 a hnil1 h1 hk,
          PostContainerInterfaces_present E s p2 a hnil2 h2 hk]
        simp [sendjson, StatusConflict]
      · rw [PostContainerInterfaces_absent E s p1 a hnil1 h1 hk,
          PostContainerInterfaces_absent E s p2 a hnil2 h2 hk]
        exact ⟨rfl, fun _ => ⟨a, rfl, rfl⟩⟩
    | cons b rest2 =>
      have hlen := hperm.length_eq
      rw [h1] at hlen
      cases h2 : ownerIds p2 with
      | nil => simp [h2] at hlen
      | cons x r2 =>
        cases r2 with
        | nil => simp [h2] at hlen
        | cons y r3 =>
          rw [PostContainerInterfaces_many_owners E s p1 a b rest2 hnil1 h1,
            PostContainerInterfaces_many_owners E s p2 x y r3 hnil2 h2]
          simp [sendjson, StatusBadRequest]

/-- C19 (evaluation at the failing input). On the empty caches, the payload of
one record whose interfaces are sandbox "a", sandbox "b" and a nil pointer, in
this order, is answered 400 at the second owner identifier; the same record
with the nil pointer moved to the front is not answered at all, the handler
panics at the nil pointer: the outcome depends on the order. -/
theorem PostContainerInterfaces_order_dependent_at_nil :
    Reordered [⟨[some ⟨"eth0", "", "a"⟩, some ⟨"eth1", "", "b"⟩, none], ""⟩]
      [⟨[none, some ⟨"eth0", "", "a"⟩, some ⟨"eth1", "", "b"⟩], ""⟩] ∧
    (PostContainerInterfaces sampleErrors State.init
      (some [⟨[some ⟨"eth0", "", "a"⟩, some ⟨"eth1", "", "b"⟩, none], ""⟩])).1.status = 400 ∧
    PostContainerInterfaces sampleErrors State.init
      (some [⟨[none, some ⟨"eth0", "", "a"⟩, some ⟨"eth1", "", "b"⟩], ""⟩])
      = (Response.aborted, State.init) ∧
    (PostContainerInterfaces sampleErrors State.init
      (some [⟨[some ⟨"eth0", "", "a"⟩, some ⟨"eth1", "", "b"⟩, none], ""⟩])).1.status
      ≠ (PostContainerInterfaces sampleErrors State.init
      (some [⟨[none, some ⟨"eth0", "", "a"⟩, some ⟨"eth1", "", "b"⟩], ""⟩])).1.status := by
  refine ⟨⟨[⟨[none, some ⟨"eth0", "", "a"⟩, some ⟨"eth1", "", "b"⟩], ""⟩],
    List.Forall₂.cons ⟨by decide, rfl⟩ List.Forall₂.nil, List.Perm.refl _⟩, ?_, ?_, ?_⟩ <;>
    decide

/-! ## Writes are local to one key -/

theorem sameExcept_refl (k : String) (s : State) : State.sameExcept k s s :=
  fun _ _ => ⟨rfl, rfl, rfl⟩

theorem GoMap.lookup_set_comm {V : Type} (m : GoMap V) (k1 k2 : String) (v1 v2 : V)
    (hne : k1 ≠ k2) (j : String) :
    ((m.set k1 v1).set k2 v2).lookup j = ((m.set k2 v2).set k1 v1).lookup j := by
  by_cases h1 : k1 = j
  · subst h1
    rw [GoMap.lookup_set_ne _ _ _ _ (Ne.symm hne), GoMap.lookup_set_same,
      GoMap.lookup_set_same]
  · by_cases h2 : k2 = j
    · subst h2
      rw [GoMap.lookup_set_same, GoMap.lookup_set_ne _ _ _ _ h1, GoMap.lookup_set_same]
    · rw [GoMap.lookup_set_ne _ _ _ _ h2, GoMap.lookup_set_ne _ _ _ _ h1,
        GoMap.lookup_set_ne _ _ _ _ h1, GoMap.lookup_set_ne _ _ _ _ h2]

theorem step_local (E : ErrorConsts) (s : State) (c : Call) :
    ∃ k, State.sameExcept k (step E s c).2 s := by
  cases c with
  | PostNetwork body =>
    cases body with
    | none => exact ⟨"", sameExcept_refl _ _⟩
    | some netconf =>
      refine ⟨netconf.Name, ?_⟩
      simp only [step, PostNetwork]
      split
      · exact sameExcept_refl _ _
      · split
        · exact sameExcept_refl _ _
        · intro j hj
          exact ⟨GoMap.lookup_set_ne _ _ _ _ (Ne.symm hj), rfl, rfl⟩
  | GetNetworks => exact ⟨"", sameExcept_refl _ _⟩
  | GetNetwork name =>
    refine ⟨name, ?_⟩
    simp only [step, GetNetwork]
    split <;> exact sameExcept_refl _ _
  | DeleteNetwork name =>
    refine ⟨name, ?_⟩
    simp only [step, DeleteNetwork]
    split
    · intro j hj
      exact ⟨GoMap.lookup_delete_ne _ _ _ (Ne.symm hj), rfl, rfl⟩
    · exact sameExcept_refl _ _
  | PutContainer name body =>
    cases body with
    | none => exact ⟨"", sameExcept_refl _ _⟩
    | some newc =>
      refine ⟨newc.Name, ?_⟩
      intro j hj
      exact ⟨rfl, GoMap.lookup_set_ne _ _ _ _ (Ne.symm hj), rfl⟩
  | GetContainers => exact ⟨"", sameExcept_refl _ _⟩
  | GetContainer name =>
    refine ⟨name, ?_⟩
    simp only [step, GetContainer]
    split <;> exact sameExcept_refl _ _
  | DeleteContainer name =>
    refine ⟨name, ?_⟩
    simp only [step, DeleteContainer]
    split
    · intro j hj
      exact ⟨rfl, GoMap.lookup_delete_ne _ _ _ (Ne.symm hj), rfl⟩
    · exact sameExcept_refl _ _
  | PostContainerInterfaces body =>
    rcases PostContainerInterfaces_cases E s body with h | ⟨payload, a, _, _, _, _, heq⟩
    · refine ⟨"", ?_⟩
      simp only [step]
      rw [h]
      exact sameExcept_refl _ _
    · refine ⟨a, ?_⟩
      simp only [step]
      rw [heq]
      intro j hj
      exact ⟨rfl, rfl, GoMap.lookup_set_ne _ _ _ _ (Ne.symm hj)⟩
  | PutContainerInterfaces name body =>
    cases body with
    | none => exact ⟨"", sameExcept_refl _ _⟩
    | some payload =>
      refine ⟨name, ?_⟩
      intro j hj
      exact ⟨rfl, rfl, GoMap.lookup_set_ne _ _ _ _ (Ne.symm hj)⟩
  | GetInterfaces => exact ⟨"", sameExcept_refl _ _⟩
  | GetContainerInterfaces name =>
    refine ⟨name, ?_⟩
    simp only [step, GetContainerInterfaces]
    split <;> exact sameExcept_refl _ _
  | DeleteContainerInterfaces name =>
    refine ⟨name, ?_⟩
    simp only [step, DeleteContainerInterfaces]
    split
    · intro j hj
      exact ⟨rfl, rfl, GoMap.lookup_delete_ne _ _ _ (Ne.symm hj)⟩
    · exact sameExcept_refl _ _

/-- C20. Every handler call, on every state, has a key k such that every other
key has the same presence and the same value in the three caches after the call
as before it. Hence two puts at different keys commute: PutContainerInterfaces
at k1 then at k2, with k1 and k2 different, gives the same maps as the opposite
order, and k1 and k2 then read the two payloads; likewise for PutContainer with
two descriptors of different Names, the keys it writes. -/
theorem Writes_local_to_one_key (E : ErrorConsts) (s : State) :
    (∀ c : Call, ∃ k, State.sameExcept k (step E s c).2 s) ∧
    (∀ (k1 k2 : String) (v1 v2 : List Result), k1 ≠ k2 →
      State.sameMaps
        (run E s [.PutContainerInterfaces k1 (some v1), .PutContainerInterfaces k2 (some v2)])
        (run E s [.PutContainerInterfaces k2 (some v2), .PutContainerInterfaces k1 (some v1)]) ∧
      (GetContainerInterfaces E (run E s [.PutContainerInterfaces k1 (some v1),
        .PutContainerInterfaces k2 (some v2)]) k1).1 = sendjson (.results v1) 200 ∧
      (GetContainerInterfaces E (run E s [.PutContainerInterfaces k1 (some v1),
        .PutContainerInterfaces k2 (some v2)]) k2).1 = sendjson (.results v2) 200) ∧
    (∀ (p1 p2 : String) (d1 d2 : Container), d1.Name ≠ d2.Name →
      State.sameMaps
        (run E s [.PutContainer p1 (some d1), .PutContainer p2 (some d2)])
        (run E s [.PutContainer p2 (some d2), .PutContainer p1 (some d1)]) ∧
      (GetContainer E (run E s [.PutContainer p1 (some d1),
        .PutContainer p2 (some d2)]) d1.Name).1 = sendjson (.container d1) 200 ∧
      (GetContainer E (run E s [.PutContainer p1 (some d1),
        .PutContainer p2 (some d2)]) d2.Name).1 = sendjson (.container d2) 200) := by
  refine ⟨step_local E s, ?_, ?_⟩
  · intro k1 k2 v1 v2 hne
    refine ⟨fun j => ⟨rfl, rfl, ?_⟩, ?_, ?_⟩
    · exact GoMap.lookup_set_comm s.Interfaces k1 k2 v1 v2 hne j
    · simp [run, step, PutContainerInterfaces, GetContainerInterfaces,
        GoMap.lookup_set_ne _ _ _ _ (Ne.symm hne), GoMap.lookup_set_same, StatusOK]
    · simp [run, step, PutContainerInterfaces, GetContainerInterfaces,
        GoMap.lookup_set_same, StatusOK]
  · intro p1 p2 d1 d2 hne
    refine ⟨fun j => ⟨rfl, ?_, rfl⟩, ?_, ?_⟩
    · exact GoMap.lookup_set_comm s.Containers d1.Name d2.Name d1 d2 hne j
    · simp [run, step, PutContainer, GetContainer,
        GoMap.lookup_set_ne _ _ _ _ (Ne.symm hne), GoMap.lookup_set_same, StatusOK]
    · simp [run, step, PutContainer, GetContainer, GoMap.lookup_set_same, StatusOK]

/-- C20 (witness). On the empty caches, putting interfaces at "a" then "b" and
at "b" then "a" gives the same maps, and "a" reads its payload. -/
theorem Writes_local_to_one_key_witness :
    State.sameMaps
      (run sampleErrors State.init
        [.PutContainerInterfaces "a" (some [⟨[], "1"⟩]),
          .PutContainerInterfaces "b" (some [⟨[], "2"⟩])])
      (run sampleErrors State.init
        [.PutContainerInterfaces "b" (some [⟨[], "2"⟩]),
          .PutContainerInterfaces "a" (some [⟨[], "1"⟩])]) ∧
    (GetContainerInterfaces sampleErrors (run sampleErrors State.init
        [.PutContainerInterfaces "a" (some [⟨[], "1"⟩]),
          .PutContainerInterfaces "b" (some [⟨[], "2"⟩])]) "a").1
      = sendjson (.results [⟨[], "1"⟩]) 200 :=
  ⟨((Writes_local_to_one_key sampleErrors State.init).2.1 "a" "b" [⟨[], "1"⟩] [⟨[], "2"⟩]
      (by decide)).1,
   ((Writes_local_to_one_key sampleErrors State.init).2.1 "a" "b" [⟨[], "1"⟩] [⟨[], "2"⟩]
      (by decide)).2.1⟩

end NuageAgent
